import Mathlib

/-!
# Verification of the tx-relay transaction relay library

Shallow embedding of the core of the `tx-relay` TypeScript repository
(`src/utils/errors.ts`, `src/preflight/checkBalance.ts`,
`src/nonce/NonceManager.ts`, `src/retry/strategies.ts`,
`src/gas/strategies.ts`, `src/hooks/HooksManager.ts`, `src/RelayClient.ts`)
together with proofs and refutations of the specification's claims.

Conventions of the embedding:
* `bigint` values (balances, fees, gas, nonces) are modelled as `Nat`
  (all values the code manipulates are non-negative).
* JavaScript `number` values that carry fractional multipliers (gas-price
  multipliers, jitter factors, delays) are modelled as `ℚ`; in the value
  ranges exercised by this library the float arithmetic of the source is
  exact, so `ℚ` is a faithful model.
* `async` methods are modelled as pure functions over an explicit
  environment that records the outcome of every external interaction
  (RPC responses, hook callback outcomes); a JavaScript exception is the
  `throw` constructor of `CallOutcome`.
* The TS `RelayResult<T>` object `{ data?, error? }` is always constructed
  with exactly one field set, so it is modelled as a sum type.
-/

set_option maxRecDepth 10000
set_option maxHeartbeats 2000000

/-- The closed error taxonomy of `src/types.ts` (`RelayErrorCode`). -/
inductive RelayErrorCode where
  | TRANSACTION_FAILED
  | GAS_ESTIMATION_FAILED
  | NONCE_ERROR
  | INSUFFICIENT_FUNDS
  | INVALID_SIGNATURE
  | PERMANENT_REVERT
  | TEMPORARY_FAILURE
  | TIMEOUT
  deriving DecidableEq, Repr

/-- The `RelayError` of `src/types.ts`: a message plus a classification code.
The opaque `cause` reference is diagnostic only and is not modelled. -/
structure RelayError where
  message : String
  code : RelayErrorCode
  deriving DecidableEq, Repr

/-- The `RelayResult<T>` of `src/types.ts`: success value xor classified error. -/
inductive RelayResult (α : Type) where
  | ok (data : α)
  | err (e : RelayError)
  deriving DecidableEq, Repr

/-- Whether a `RelayResult` carries an error (`result.error` is set). -/
def RelayResult.isErr {α : Type} : RelayResult α → Bool
  | .ok _ => false
  | .err _ => true

/-- A JavaScript value thrown or passed as an `unknown` error:
either an already-constructed `RelayError` (an `instanceof RelayError`),
some other `Error` instance (only its `.message` is consulted), or an
arbitrary non-`Error` value rendered by `String(error)`. -/
inductive JsError where
  | relayErr (e : RelayError)
  | errObj (message : String)
  | strVal (s : String)
  deriving DecidableEq, Repr

/-- The outcome of awaiting one external call or callback: a value, or a
thrown JavaScript exception. -/
inductive CallOutcome (α : Type) where
  | ok (a : α)
  | throw (e : JsError)
  deriving DecidableEq, Repr

/-- Whether `needle` occurs at the head of `haystack` (character lists). -/
def hasPrefixChars : List Char → List Char → Bool
  | [], _ => true
  | _ :: _, [] => false
  | c :: cs, d :: ds => c == d && hasPrefixChars cs ds

/-- Whether `needle` occurs somewhere in `haystack` (character lists). -/
def hasSubstrChars (needle : List Char) : List Char → Bool
  | [] => hasPrefixChars needle []
  | d :: ds => hasPrefixChars needle (d :: ds) || hasSubstrChars needle ds

/-- JavaScript's `haystack.includes(needle)`: substring containment.
The messages the code matches are ASCII, so character-level containment
coincides with the UTF-16 code-unit search of the runtime. -/
def jsIncludes (haystack needle : String) : Bool :=
  hasSubstrChars needle.data haystack.data

/-- The message-pattern classification of `classifyError`
(`src/utils/errors.ts`, lines 3-39): first match wins, in priority order,
with `TEMPORARY_FAILURE` as the default.  Note that the source uses
`String.prototype.includes`, which is case-sensitive. -/
def classifyCode (message : String) : RelayErrorCode :=
  if jsIncludes message "insufficient funds" then
    .INSUFFICIENT_FUNDS
  else if jsIncludes message "invalid signature" || jsIncludes message "invalid sender" then
    .INVALID_SIGNATURE
  else if jsIncludes message "invalid opcode" || jsIncludes message "execution reverted" ||
      jsIncludes message "revert" || jsIncludes message "unauthorized" then
    .PERMANENT_REVERT
  else if jsIncludes message "timeout" || jsIncludes message "network" ||
      jsIncludes message "connection" || jsIncludes message "rate limit" ||
      jsIncludes message "nonce too low" then
    .TEMPORARY_FAILURE
  else
    .TEMPORARY_FAILURE

/-- The message a JavaScript value is reduced to by `classifyError`:
`error instanceof Error ? error.message : String(error)`. -/
def extractMessage : JsError → String
  | .relayErr e => e.message
  | .errObj m => m
  | .strVal s => s

/-- The `classifyError` function of `src/utils/errors.ts`: an `instanceof RelayError`
is returned unchanged; anything else is wrapped in a `RelayError` whose
message is the extracted text and whose code comes from the pattern
match above. -/
def classifyError : JsError → RelayError
  | .relayErr e => e
  | .errObj m => ⟨m, classifyCode m⟩
  | .strVal s => ⟨s, classifyCode s⟩

/-- The `checkBalance` function of `src/preflight/checkBalance.ts`.  The balance fetch
(`publicClient.getBalance`) is supplied as a `CallOutcome`; a fetch fault
is caught and routed through `classifyError`.  The failure message is the
template literal of line 17 of the source. -/
def checkBalance (balanceFetch : CallOutcome Nat) (requiredAmount : Nat)
    (minBalanceRequired : Option Nat) : RelayResult Unit :=
  match balanceFetch with
  | .throw e => .err (classifyError e)
  | .ok balance =>
    let minRequired := minBalanceRequired.getD requiredAmount
    if balance < minRequired then
      .err (classifyError (.strVal
        ("Insufficient balance. Required: " ++ toString minRequired ++
          ", Available: " ++ toString balance)))
    else
      .ok ()

/-! ## Substring-search lemmas -/

/-- Helper for extracting the classification code of a result's error. -/
def RelayResult.errCode {α : Type} : RelayResult α → Option RelayErrorCode
  | .ok _ => none
  | .err e => some e.code

theorem hasPrefixChars_append_self (n r : List Char) :
    hasPrefixChars n (n ++ r) = true := by
  induction n with
  | nil => simp [hasPrefixChars]
  | cons c cs ih => simp [hasPrefixChars, ih]

theorem hasSubstrChars_of_prefixChars (n l : List Char) (h : hasPrefixChars n l = true) :
    hasSubstrChars n l = true := by
  cases l with
  | nil => simpa [hasSubstrChars] using h
  | cons d ds => simp [hasSubstrChars, h]

/-! ## Spec-side classification (for the refinement statement of the claim
about `classifyError`) -/

/-- The spec's INSUFFICIENT_FUNDS patterns. -/
def fundsPatterns : List String := ["insufficient funds"]

/-- The spec's INVALID_SIGNATURE patterns. -/
def signaturePatterns : List String := ["invalid signature", "invalid sender"]

/-- The spec's PERMANENT_REVERT patterns. -/
def revertPatterns : List String := ["invalid opcode", "execution reverted", "revert", "unauthorized"]

/-- The spec's TEMPORARY_FAILURE patterns. -/
def transientPatterns : List String := ["timeout", "network", "connection", "rate limit", "nonce too low"]

/-- A message matches a pattern group when it contains any of its patterns. -/
def matchesAny (message : String) (patterns : List String) : Bool :=
  patterns.any (fun p => jsIncludes message p)

/-- Classification as the spec sentence describes it, amended to be
case-sensitive: a priority table searched first-match-wins, with
`TEMPORARY_FAILURE` for anything unmatched.  Written from the spec's
words, to be compared against `classifyCode` (from the source). -/
def specClassifyCode (message : String) : RelayErrorCode :=
  match ([(fundsPatterns, RelayErrorCode.INSUFFICIENT_FUNDS),
          (signaturePatterns, RelayErrorCode.INVALID_SIGNATURE),
          (revertPatterns, RelayErrorCode.PERMANENT_REVERT),
          (transientPatterns, RelayErrorCode.TEMPORARY_FAILURE)].find?
            (fun pr => matchesAny message pr.1)) with
  | some pr => pr.2
  | none => .TEMPORARY_FAILURE

/-- ASCII lower-casing of a character (JavaScript `toLowerCase` restricted
to the ASCII range, which covers every pattern the classifier uses). -/
def lowerChar (c : Char) : Char :=
  if 'A' ≤ c && c ≤ 'Z' then Char.ofNat (c.toNat + 32) else c

/-- ASCII lower-casing of a string. -/
def lowerStr (s : String) : String := ⟨s.data.map lowerChar⟩

/-- Classification exactly as the claim words it: CASE-INSENSITIVE
substring matching in the same priority order. -/
def specClassifyCodeCI (message : String) : RelayErrorCode :=
  specClassifyCode (lowerStr message)

/-- The claim's wording is refuted by any message whose wording matches a
pattern only up to letter case: the source's `String.prototype.includes`
is case-sensitive, so such a message falls through to the default code. -/
theorem classify_case_insensitive_counterexample :
    specClassifyCodeCI "Insufficient FUNDS to pay for gas" =
      RelayErrorCode.INSUFFICIENT_FUNDS ∧
    classifyError (.errObj "Insufficient FUNDS to pay for gas") =
      ⟨"Insufficient FUNDS to pay for gas", RelayErrorCode.TEMPORARY_FAILURE⟩ := by
  constructor
  · decide
  · decide

/-- Claim C7 (amended): `classifyError` returns an already-classified
error unchanged; otherwise it wraps the extracted message with the code
given by CASE-SENSITIVE first-match-wins priority matching
(INSUFFICIENT_FUNDS, INVALID_SIGNATURE, PERMANENT_REVERT,
TEMPORARY_FAILURE patterns), and every unmatched message also becomes
TEMPORARY_FAILURE; as a total function it never fails. -/
theorem classifyError_priority_spec (e : RelayError) (m : String) :
    classifyError (.relayErr e) = e ∧
    classifyError (.errObj m) = ⟨m, specClassifyCode m⟩ ∧
    classifyError (.strVal m) = ⟨m, specClassifyCode m⟩ := by
  refine ⟨rfl, ?_, ?_⟩ <;>
    simp only [classifyError, specClassifyCode, matchesAny, fundsPatterns,
      signaturePatterns, revertPatterns, transientPatterns, List.find?,
      List.any_cons, List.any_nil, Bool.or_false, classifyCode] <;>
    rcases h1 : jsIncludes m "insufficient funds" <;>
    rcases h2 : (jsIncludes m "invalid signature" || jsIncludes m "invalid sender") <;>
    rcases h3 : (jsIncludes m "invalid opcode" || (jsIncludes m "execution reverted" ||
      (jsIncludes m "revert" || jsIncludes m "unauthorized"))) <;>
    rcases h4 : (jsIncludes m "timeout" || (jsIncludes m "network" ||
      (jsIncludes m "connection" || (jsIncludes m "rate limit" ||
        jsIncludes m "nonce too low")))) <;>
    simp_all <;>
    (intro ha hb hc; rcases h3 with h | h | h | h <;> simp_all)

/-! ## Balance preflight check -/

/-- The failure message template of `checkBalance` (line 17 of
`src/preflight/checkBalance.ts`). -/
def balanceMsg (minRequired balance : Nat) : String :=
  "Insufficient balance. Required: " ++ toString minRequired ++
    ", Available: " ++ toString balance

theorem jsIncludes_balanceMsg (minRequired balance : Nat) :
    jsIncludes (balanceMsg minRequired balance) "Insufficient balance" = true := by
  have hlit : ("Insufficient balance. Required: " : String).data =
      ("Insufficient balance" : String).data ++ (". Required: " : String).data := by decide
  simp only [balanceMsg, jsIncludes, String.data_append, hlit, List.append_assoc]
  exact hasSubstrChars_of_prefixChars _ _ (hasPrefixChars_append_self _ _)

/-- Claim C9 (amended): the preflight balance check fails iff the fetched
balance is strictly below the threshold (`minBalanceRequired` when
supplied, else `requiredAmount`) — equality passes —; on failure it
returns the error obtained by routing the message
`Insufficient balance. Required: …, Available: …` through the Error
Classifier, and that message contains `"Insufficient balance"`.  Because
the message does not contain the classifier's case-sensitive pattern
`insufficient funds`, the resulting code is TEMPORARY_FAILURE rather than
INSUFFICIENT_FUNDS (witnessed concretely at balance 99, required 100). -/
theorem checkBalance_threshold_spec (b req : Nat) (minOverride : Option Nat) :
    ((checkBalance (.ok b) req minOverride).isErr = true ↔ b < minOverride.getD req) ∧
    (b < minOverride.getD req →
      checkBalance (.ok b) req minOverride =
        .err (classifyError (.strVal (balanceMsg (minOverride.getD req) b))) ∧
      jsIncludes (balanceMsg (minOverride.getD req) b) "Insufficient balance" = true) ∧
    (checkBalance (.ok 99) 100 none).errCode = some .TEMPORARY_FAILURE := by
  refine ⟨?_, fun h => ⟨?_, jsIncludes_balanceMsg _ _⟩, by decide⟩
  · by_cases hb : b < minOverride.getD req <;>
      simp [checkBalance, hb, RelayResult.isErr]
  · simp [checkBalance, h, balanceMsg]

/-- Witness for `checkBalance_threshold_spec` at balance 99, required
100, no override: the check fails with a TEMPORARY_FAILURE-classified
error whose message contains `"Insufficient balance"`. -/
theorem checkBalance_threshold_spec_witness :
    (checkBalance (.ok 99) 100 none).isErr = true ∧
    checkBalance (.ok 99) 100 none =
      .err (classifyError (.strVal (balanceMsg 100 99))) ∧
    jsIncludes (balanceMsg 100 99) "Insufficient balance" = true ∧
    (checkBalance (.ok 99) 100 none).errCode = some .TEMPORARY_FAILURE := by
  obtain ⟨h1, h2, h3⟩ := checkBalance_threshold_spec 99 100 none
  obtain ⟨h4, h5⟩ := h2 (by decide)
  exact ⟨h1.mpr (by decide), h4, h5, h3⟩

/-- The claim as stated is false: at balance 99 against required 100 the
returned error is classified TEMPORARY_FAILURE, not INSUFFICIENT_FUNDS
(the message `Insufficient balance. …` does not contain the classifier's
case-sensitive pattern `insufficient funds`). -/
theorem checkBalance_classification_counterexample :
    checkBalance (.ok 99) 100 none =
      .err ⟨"Insufficient balance. Required: 100, Available: 99",
        RelayErrorCode.TEMPORARY_FAILURE⟩ ∧
    (checkBalance (.ok 99) 100 none).errCode ≠ some .INSUFFICIENT_FUNDS := by
  constructor
  · decide
  · decide

/-! ## Nonce allocator (`src/nonce/NonceManager.ts`)

The allocator's only state is `currentNonce : number | null`, modelled as
`Option Nat`.  The mutex serializes all accesses, so the concurrent
behaviour of the source is exactly the sequential iteration modelled
here (each critical section runs atomically, in completion order). -/

namespace NonceManager

/-- The `getNextNonce` method (lines 30-41 of the source): under the mutex, if no
nonce is cached, fetch the account's on-chain transaction count (the
supplied outcome of `publicClient.getTransactionCount`) and cache it as
the returned value; otherwise increment the cached value.  A fetch fault
propagates and leaves the cache unchanged (the assignment never runs). -/
def getNextNonce (fetch : CallOutcome Nat) (currentNonce : Option Nat) :
    CallOutcome (Nat × Option Nat) :=
  match currentNonce with
  | some n => .ok (n + 1, some (n + 1))
  | none =>
    match fetch with
    | .throw e => .throw e
    | .ok c => .ok (c, some c)

/-- The `reset` method (lines 48-52 of the source): clears the cached nonce. -/
def reset (_ : Option Nat) : Option Nat := none

/-- Iterates `getNextNonce` over a list of chain responses (the value
`getTransactionCount` would return at each call, were it consulted),
collecting the returned nonces and the final state.  All fetches succeed
here, so the `throw` fallback branch is unreachable. -/
def runCalls : List Nat → Option Nat → List Nat × Option Nat
  | [], s => ([], s)
  | c :: cs, s =>
    match getNextNonce (.ok c) s with
    | .ok (n, s1) =>
      let p := runCalls cs s1
      (n :: p.1, p.2)
    | .throw _ => ([], s)

theorem runCalls_cached (cs : List Nat) (n : Nat) :
    runCalls cs (some n) = (List.range' (n + 1) cs.length, some (n + cs.length)) := by
  induction cs generalizing n with
  | nil => simp [runCalls]
  | cons c cs ih =>
    simp [runCalls, getNextNonce, ih (n + 1), List.range'_succ]
    omega

end NonceManager

/-- Claim C3: starting from a fresh allocator whose first chain fetch
returns `C`, a sequence of `N = cs.length + 1` calls (the later calls'
would-be fetch values `cs` are irrelevant: the cache is used) returns
exactly `C, C+1, …, C+N-1`, with no repeats; and after a `reset`, the
next call returns the freshly fetched chain count — whatever value was
cached before the reset is discarded, never incremented or reused. -/
theorem nonce_allocator_sequence_spec (C : Nat) (cs : List Nat) :
    (NonceManager.runCalls (C :: cs) none).1 = List.range' C (cs.length + 1) ∧
    (NonceManager.runCalls (C :: cs) none).1.Nodup ∧
    (∀ v, v ∈ (NonceManager.runCalls (C :: cs) none).1 ↔
      C ≤ v ∧ v < C + (cs.length + 1)) ∧
    (NonceManager.runCalls (C :: cs) none).2 = some (C + cs.length) ∧
    (∀ s c, NonceManager.getNextNonce (.ok c) (NonceManager.reset s) =
      .ok (c, some c)) := by
  have hrun : NonceManager.runCalls (C :: cs) none =
      (List.range' C (cs.length + 1), some (C + cs.length)) := by
    simp [NonceManager.runCalls, NonceManager.getNextNonce,
      NonceManager.runCalls_cached, List.range'_succ]
  refine ⟨by simp [hrun], ?_, ?_, by simp [hrun], fun s c => rfl⟩
  · rw [hrun]
    exact List.nodup_range' C (cs.length + 1) 1 Nat.one_pos
  · intro v
    rw [hrun]
    exact List.mem_range'_1

/-! ## Retry strategy (`src/retry/strategies.ts`) -/

/-- JavaScript `Math.ceil` over exact rational arithmetic, landing in `Nat` via
`BigInt(...)` (the values involved are non-negative).  JavaScript float
arithmetic is exact at the magnitudes this library computes. -/
def ceilQ (q : ℚ) : Nat := (⌈q⌉ : ℤ).toNat

namespace ExponentialBackoff

/-- The `getDelay` method (lines 45-49 of the source): exponential delay
`baseDelay * 2^attempt`, scaled by the jitter factor
`0.75 + Math.random() * 0.5` (so `jitter ∈ [3/4, 5/4]`), and finally
clamped: `Math.min(this.maxDelay, jitteredDelay)`.  Constructor defaults:
`baseDelay = 1000`, `maxDelay = 30000` (milliseconds). -/
def getDelay (baseDelay maxDelay : ℚ) (attempt : Nat) (jitter : ℚ) : ℚ :=
  let expDelay := baseDelay * 2 ^ attempt
  let jitteredDelay := expDelay * jitter
  min maxDelay jitteredDelay

end ExponentialBackoff

/-- The delay formula as the claim words it: clamp the exponential delay
by `maxDelay` FIRST, then scale by the jitter factor. -/
def specClaimDelay (baseDelay maxDelay : ℚ) (attempt : Nat) (jitter : ℚ) : ℚ :=
  min maxDelay (baseDelay * 2 ^ attempt) * jitter

/-- The claim's formula is false on the code: at attempt 5 with defaults
and jitter 4/5 (inside [0.75, 1.25]), the code clamps after scaling and
returns 25600, while the claim's clamp-then-scale formula gives 24000. -/
theorem backoff_clamp_order_counterexample :
    ((3 : ℚ)/4 ≤ 4/5 ∧ (4 : ℚ)/5 ≤ 5/4) ∧
    ExponentialBackoff.getDelay 1000 30000 5 (4/5) = 25600 ∧
    specClaimDelay 1000 30000 5 (4/5) = 24000 ∧
    ExponentialBackoff.getDelay 1000 30000 5 (4/5) ≠
      specClaimDelay 1000 30000 5 (4/5) := by
  norm_num [ExponentialBackoff.getDelay, specClaimDelay]

/-- Claim C8 (amended): with defaults baseDelay = 1000 and
maxDelay = 30000, for every attempt `n` and jitter factor
`j ∈ [0.75, 1.25]`, `getDelay(n)` equals
`min(maxDelay, baseDelay · 2^n · j)` — the clamp is applied AFTER the
jitter — so the delay never exceeds `maxDelay`; in particular
`getDelay(4)` is at most 20000, hence at most 30000. -/
theorem backoff_delay_spec (n : Nat) (j : ℚ) (h1 : 3/4 ≤ j) (h2 : j ≤ 5/4) :
    ExponentialBackoff.getDelay 1000 30000 n j = min 30000 (1000 * 2 ^ n * j) ∧
    ExponentialBackoff.getDelay 1000 30000 n j ≤ 30000 ∧
    ExponentialBackoff.getDelay 1000 30000 4 j ≤ 20000 ∧
    ExponentialBackoff.getDelay 1000 30000 4 j ≤ 30000 := by
  refine ⟨rfl, min_le_left _ _, ?_, ?_⟩
  · have hb : (1000 : ℚ) * 2 ^ 4 * j ≤ 20000 := by nlinarith
    calc ExponentialBackoff.getDelay 1000 30000 4 j ≤ 1000 * 2 ^ 4 * j :=
          min_le_right _ _
      _ ≤ 20000 := hb
  · have hb : (1000 : ℚ) * 2 ^ 4 * j ≤ 20000 := by nlinarith
    calc ExponentialBackoff.getDelay 1000 30000 4 j ≤ 1000 * 2 ^ 4 * j :=
          min_le_right _ _
      _ ≤ 20000 := hb
      _ ≤ 30000 := by norm_num

/-- Witness for `backoff_delay_spec` at attempt 5, jitter 1. -/
theorem backoff_delay_spec_witness :
    ExponentialBackoff.getDelay 1000 30000 5 1 = min 30000 (1000 * 2 ^ 5 * 1) ∧
    ExponentialBackoff.getDelay 1000 30000 5 1 ≤ 30000 ∧
    ExponentialBackoff.getDelay 1000 30000 4 1 ≤ 20000 ∧
    ExponentialBackoff.getDelay 1000 30000 4 1 ≤ 30000 :=
  backoff_delay_spec 5 1 (by norm_num) (by norm_num)

/-! ## Gas pricing: fee parameters and the EIP-1559 (market) strategy
(`src/gas/strategies.ts`) -/

/-- The `GasParameters` record of `src/types.ts`: all three fee fields optional; the
EIP-1559 strategy populates exactly the two market-fee fields. -/
structure GasParameters where
  gasPrice : Option Nat
  maxFeePerGas : Option Nat
  maxPriorityFeePerGas : Option Nat
  deriving DecidableEq, Repr

namespace EIP1559GasStrategy

/-- The `EIP1559Config` record, with the constructor's `??` defaults applied
(lines 66-74 of `src/gas/strategies.ts`). -/
structure Config where
  baseFeeMultiplier : ℚ
  priorityFeeMultiplier : ℚ
  minPriorityFee : Nat
  maxPriorityFee : Nat
  maxTotalFee : Nat
  percentile : Nat
  blockHistory : Nat

/-- The constructor defaults: multipliers 2 and 1.5, priority-fee bounds
10⁹ and 500·10⁹, total-fee cap 1000·10⁹, 50th percentile, 20 blocks. -/
def defaults : Config :=
  ⟨2, 3/2, 1000000000, 500000000000, 1000000000000, 50, 20⟩

/-- The pure fee computation of `getGasParameters` (lines 81-140 of the
source), given the fetched block's `baseFeePerGas` and the sampled
per-block rewards at the configured percentile
(`feeHistory.reward.map(r => r[0])`):
* `medianPriorityFee` is the element at index `⌊length/2⌋` of the sample
  in the order the RPC returned it (the fallback for an empty sample is
  the configured minimum priority fee);
* multiplied by `priorityFeeMultiplier` and rounded up, then raised to
  `minPriorityFee` and capped at `maxPriorityFee`;
* `maxFeePerGas = baseFee * ceil(baseFeeMultiplier) + priority`, capped
  at `maxTotalFee`. -/
def getGasParameters (cfg : Config) (baseFeePerGas : Nat)
    (priorityFees : List Nat) : GasParameters :=
  let medianPriorityFee :=
    if priorityFees.length > 0 then priorityFees.getD (priorityFees.length / 2) 0
    else cfg.minPriorityFee
  let p0 := ceilQ ((medianPriorityFee : ℚ) * cfg.priorityFeeMultiplier)
  let p1 := if p0 < cfg.minPriorityFee then cfg.minPriorityFee else p0
  let p2 := if p1 > cfg.maxPriorityFee then cfg.maxPriorityFee else p1
  let f0 := baseFeePerGas * ceilQ cfg.baseFeeMultiplier + p2
  let f := if f0 > cfg.maxTotalFee then cfg.maxTotalFee else f0
  { gasPrice := none, maxFeePerGas := some f, maxPriorityFeePerGas := some p2 }

end EIP1559GasStrategy

/-- The median as the claim's wording intends it: the middle element of
the sample SORTED in nondecreasing order (falling back to the default
when the sample is empty). -/
def specMedian (l : List Nat) (dflt : Nat) : Nat :=
  if l.length > 0 then (List.insertionSort (· ≤ ·) l).getD (l.length / 2) 0
  else dflt

/-- The priority fee as the claim words it, for the default
configuration: true median, ×1.5 rounded up, clamped into
[minPriorityFee, maxPriorityFee]. -/
def specMedianPriorityFee (rewards : List Nat) : Nat :=
  max 1000000000 (min 500000000000
    (ceilQ ((specMedian rewards 1000000000 : ℚ) * (3/2))))

/-- The fee computation as the amended claim words it (default config):
the sample element at index ⌊n/2⌋ in the order given — which is the
median only when the sample arrives sorted — with fallback 10⁹ on an
empty sample, ×1.5 rounded up, clamped into [10⁹, 500·10⁹]; and
`maxFeePerGas = baseFee × 2 + priority`, capped at 1000·10⁹. -/
def specGasAmended (baseFee : Nat) (rewards : List Nat) : GasParameters :=
  let sample :=
    if rewards.length > 0 then rewards.getD (rewards.length / 2) 0
    else 1000000000
  let prio := max 1000000000 (min 500000000000 (ceilQ ((sample : ℚ) * (3/2))))
  let fee := min 1000000000000 (baseFee * 2 + prio)
  ⟨none, some fee, some prio⟩

/-- The claim's median wording and its below-minimum sentence are both
false on the code: (a) for the unsorted sample [2, 5, 1]·10⁹ the true
median is 2·10⁹ (claim: priority fee 3·10⁹) but the code takes the
middle element 5·10⁹ of the unsorted sample and returns 7.5·10⁹;
(b) a sampled reward of 0.9·10⁹, strictly below minPriorityFee = 10⁹,
yields 1.35·10⁹ after the 1.5× multiplier, not minPriorityFee. -/
theorem eip1559_median_counterexample :
    (EIP1559GasStrategy.getGasParameters EIP1559GasStrategy.defaults 100000000000
        [2000000000, 5000000000, 1000000000]).maxPriorityFeePerGas =
      some 7500000000 ∧
    specMedianPriorityFee [2000000000, 5000000000, 1000000000] = 3000000000 ∧
    (7500000000 : Nat) ≠ 3000000000 ∧
    (EIP1559GasStrategy.getGasParameters EIP1559GasStrategy.defaults 100000000000
        [900000000]).maxPriorityFeePerGas = some 1350000000 ∧
    900000000 < EIP1559GasStrategy.defaults.minPriorityFee ∧
    (1350000000 : Nat) ≠ 1000000000 := by
  refine ⟨?_, ?_, by norm_num, ?_, by norm_num [EIP1559GasStrategy.defaults], by norm_num⟩
  · norm_num [EIP1559GasStrategy.getGasParameters, EIP1559GasStrategy.defaults, ceilQ]
    rfl
  · norm_num [specMedianPriorityFee, specMedian, ceilQ]
    rfl
  · norm_num [EIP1559GasStrategy.getGasParameters, EIP1559GasStrategy.defaults, ceilQ]
    rfl

/-- Raise-to-min-then-cap-at-max (the two `if` clamps of the source)
agrees with clamping into the interval, at the default bounds. -/
theorem clampPriorityNat (a : Nat) :
    (if (if a < 1000000000 then 1000000000 else a) > 500000000000
      then 500000000000
      else if a < 1000000000 then 1000000000 else a) =
    max 1000000000 (min 500000000000 a) := by
  split_ifs <;> omega

/-- The total-fee cap `if` of the source is a `min`. -/
theorem capTotalNat (x : Nat) :
    (if x > 1000000000000 then 1000000000000 else x) = min 1000000000000 x := by
  split_ifs <;> omega

/-- Under the default configuration the strategy computes exactly the
amended-claim formula. -/
theorem getGasParameters_defaults_eq (baseFee : Nat) (rewards : List Nat) :
    EIP1559GasStrategy.getGasParameters EIP1559GasStrategy.defaults baseFee
      rewards = specGasAmended baseFee rewards := by
  have hceil2 : ceilQ (2 : ℚ) = 2 := by
    norm_num [ceilQ]
    rfl
  simp only [EIP1559GasStrategy.getGasParameters, specGasAmended,
    EIP1559GasStrategy.defaults, hceil2, clampPriorityNat, capTotalNat]

/-- Claim C6 (amended): under the default configuration the market
strategy sets the priority fee from the sample element at index ⌊n/2⌋ in
the order the RPC returned it (the median only when the sample is
sorted; fallback minPriorityFee when empty) multiplied by 1.5 and
rounded up, clamped into [minPriorityFee, maxPriorityFee], and sets
`maxFeePerGas = baseFee × 2 + clampedPriority`, capped at maxTotalFee.
With baseFee = 100·10⁹ and sampled reward 2·10⁹ this yields
(3·10⁹, 203·10⁹); and a sampled reward whose 1.5× multiple rounded up is
at most minPriorityFee yields exactly minPriorityFee. -/
theorem eip1559_default_pricing_spec (baseFee r : Nat) (rewards : List Nat)
    (hr : ceilQ ((r : ℚ) * (3/2)) ≤ 1000000000) :
    EIP1559GasStrategy.getGasParameters EIP1559GasStrategy.defaults baseFee rewards =
      specGasAmended baseFee rewards ∧
    EIP1559GasStrategy.getGasParameters EIP1559GasStrategy.defaults 100000000000
      [2000000000] = ⟨none, some 203000000000, some 3000000000⟩ ∧
    (EIP1559GasStrategy.getGasParameters EIP1559GasStrategy.defaults baseFee
      [r]).maxPriorityFeePerGas = some 1000000000 := by
  refine ⟨getGasParameters_defaults_eq baseFee rewards, ?_, ?_⟩
  · rw [getGasParameters_defaults_eq]
    have h3 : ceilQ ((2000000000 : ℚ) * (3/2)) = 3000000000 := by
      norm_num [ceilQ]
      rfl
    simp [specGasAmended, h3]
  · rw [getGasParameters_defaults_eq]
    simp only [specGasAmended]
    norm_num
    omega

/-- Witness for `eip1559_default_pricing_spec` at baseFee 100·10⁹,
below-minimum sampled reward 0, and sample [2·10⁹]. -/
theorem eip1559_default_pricing_spec_witness :
    EIP1559GasStrategy.getGasParameters EIP1559GasStrategy.defaults 100000000000
      [2000000000] = specGasAmended 100000000000 [2000000000] ∧
    EIP1559GasStrategy.getGasParameters EIP1559GasStrategy.defaults 100000000000
      [2000000000] = ⟨none, some 203000000000, some 3000000000⟩ ∧
    (EIP1559GasStrategy.getGasParameters EIP1559GasStrategy.defaults 100000000000
      [0]).maxPriorityFeePerGas = some 1000000000 :=
  eip1559_default_pricing_spec 100000000000 0 [2000000000] (by simp [ceilQ])

/-! ## The submission orchestrator (`src/RelayClient.ts`)

`sendTransaction` (lines 327-400 of the source) is a linear sequence of
awaits inside one `try`/`catch`.  It is embedded stage by stage, in
source order, as pure functions threading the accumulated event trace
and the nonce allocator's state; every external interaction's outcome is
supplied by an explicit environment. -/

/-- A mined receipt, reduced to the one field the orchestrator inspects
(`receipt.status`). -/
inductive ReceiptStatus where
  | success
  | reverted
  deriving DecidableEq, Repr

/-- A transaction receipt (`receipt.data`). -/
structure Receipt where
  status : ReceiptStatus
  deriving DecidableEq, Repr

/-- The orchestrator configuration, reduced to what `sendTransaction`
consults: the preflight toggle, the minimum-balance override, and the
five optional lifecycle hook slots.  A present slot carries the outcome
of awaiting that callback (hook bodies are caller code outside the
model: they either complete or throw). -/
structure Config where
  checkBalanceEnabled : Bool
  minBalanceRequired : Option Nat
  beforeTransaction : Option (CallOutcome Unit)
  afterTransaction : Option (CallOutcome Unit)
  onTransactionBroadcast : Option (CallOutcome Unit)
  onTransactionConfirmed : Option (CallOutcome Unit)
  onError : Option (CallOutcome Unit)
  deriving DecidableEq, Repr

/-- The environment of one execution: the outcome of each external
interaction in program order.  `estimateGas` and the gas strategy never
throw (each wraps faults into a `RelayResult`), so they appear as
results; the balance fetch, the nonce fetch and the broadcast may throw;
`waitForTransaction` is `withRetry`-wrapped and never throws. -/
structure Env where
  gasResult : RelayResult Nat
  gasParamsResult : RelayResult GasParameters
  balanceFetch : CallOutcome Nat
  nonceFetch : CallOutcome Nat
  broadcast : CallOutcome Nat
  waitResult : RelayResult Receipt
  deriving DecidableEq, Repr

/-- Observable events of one execution: hook dispatches (in order) and
nonce-allocator interactions. -/
inductive Event where
  | beforeHook
  | broadcastHook
  | confirmedHook
  | afterHook
  | errorHook
  | nonceAlloc (n : Nat)
  | nonceReset
  deriving DecidableEq, Repr

/-- Whether an event is a hook dispatch. -/
def Event.isHook : Event → Bool
  | .nonceAlloc _ => false
  | .nonceReset => false
  | _ => true

/-- The hook dispatches of a trace, in order. -/
def hookEvents (evs : List Event) : List Event := evs.filter Event.isHook

/-- Exit of the `try` block: an early `return` carrying a `RelayResult`,
or a thrown exception to be handled by the `catch` block. -/
inductive TryOut where
  | ret (r : RelayResult Nat)
  | thrown (e : JsError)
  deriving DecidableEq, Repr

/-- Final outcome of `sendTransaction`: a returned `RelayResult`, or an
exception escaping the whole call (only possible from inside `catch`). -/
inductive TxOutcome where
  | result (r : RelayResult Nat)
  | raised (e : JsError)
  deriving DecidableEq, Repr

/-- The fee factor `gasParams.gasPrice ?? gasParams.maxFeePerGas!` (line 350): the
legacy price when present, else the market fee; if both are absent the
non-null assertion is wrong at runtime and the multiplication
`estimatedGas * undefined` throws a `TypeError`. -/
def feePerGas (gp : GasParameters) : CallOutcome Nat :=
  match gp.gasPrice with
  | some p => .ok p
  | none =>
    match gp.maxFeePerGas with
    | some f => .ok f
    | none => .throw (.errObj "Cannot mix BigInt and other types")

/-- Lines 385-391: the confirmed hook — dispatched only when the receipt
status is `success`, and a no-op when the slot is absent (the
`HooksManager.runOnTransactionConfirmed` semantics, inlined) — then the
after-complete hook likewise, then `return { data: hash }`.  A hook
fault propagates (the dispatcher catches nothing). -/
def tryTail (cfg : Config) (receipt : Receipt) (hash : Nat)
    (evs : List Event) (s : Option Nat) : List Event × Option Nat × TryOut :=
  match (if receipt.status = .success then cfg.onTransactionConfirmed
         else none) with
  | some (.throw e) => (evs ++ [.confirmedHook], s, .thrown e)
  | slotC =>
    let evs1 := evs ++ (if slotC.isSome then [Event.confirmedHook] else [])
    match cfg.afterTransaction with
    | some (.throw e) => (evs1 ++ [.afterHook], s, .thrown e)
    | some (.ok _) => (evs1 ++ [.afterHook], s, .ret (.ok hash))
    | none => (evs1, s, .ret (.ok hash))

/-- Lines 379-383: wait for the receipt; on a confirmation-wait error,
reset the allocator and return that error (no hook fires here). -/
def tryWait (cfg : Config) (env : Env) (hash : Nat)
    (evs : List Event) (s : Option Nat) : List Event × Option Nat × TryOut :=
  match env.waitResult with
  | .err e => (evs ++ [.nonceReset], none, .ret (.err e))
  | .ok receipt => tryTail cfg receipt hash evs s

/-- Lines 375-377: broadcast (may throw), then the broadcast hook
(no-op when absent; its fault propagates). -/
def tryBroadcast (cfg : Config) (env : Env)
    (evs : List Event) (s : Option Nat) : List Event × Option Nat × TryOut :=
  match env.broadcast with
  | .throw e => (evs, s, .thrown e)
  | .ok hash =>
    match cfg.onTransactionBroadcast with
    | some (.throw e) => (evs ++ [.broadcastHook], s, .thrown e)
    | some (.ok _) => tryWait cfg env hash (evs ++ [.broadcastHook]) s
    | none => tryWait cfg env hash evs s

/-- Line 364: allocate the next nonce through the `NonceManager`; a
fetch fault leaves the cache unchanged and throws. -/
def tryNonce (cfg : Config) (env : Env)
    (evs : List Event) (s : Option Nat) : List Event × Option Nat × TryOut :=
  match NonceManager.getNextNonce env.nonceFetch s with
  | .throw e => (evs, s, .thrown e)
  | .ok (n, s1) => tryBroadcast cfg env (evs ++ [.nonceAlloc n]) s1

/-- Line 362: the before-send hook (no-op when absent; its fault
propagates). -/
def tryBefore (cfg : Config) (env : Env)
    (evs : List Event) (s : Option Nat) : List Event × Option Nat × TryOut :=
  match cfg.beforeTransaction with
  | some (.throw e) => (evs ++ [.beforeHook], s, .thrown e)
  | some (.ok _) => tryNonce cfg env (evs ++ [.beforeHook]) s
  | none => tryNonce cfg env evs s

/-- Lines 348-360: the optional preflight balance check, with
`totalGas = estimatedGas * (gasPrice ?? maxFeePerGas!)`; a check failure
returns that error before any hook or nonce activity. -/
def tryPreflight (cfg : Config) (env : Env) (estimatedGas : Nat)
    (gasParams : GasParameters) (s : Option Nat) :
    List Event × Option Nat × TryOut :=
  if cfg.checkBalanceEnabled then
    match feePerGas gasParams with
    | .throw e => ([], s, .thrown e)
    | .ok fee =>
      match checkBalance env.balanceFetch (estimatedGas * fee)
          cfg.minBalanceRequired with
      | .err e => ([], s, .ret (.err e))
      | .ok _ => tryBefore cfg env [] s
  else tryBefore cfg env [] s

/-- Lines 329-346, then the rest of the `try` block: gas estimation and
fee computation (their errors short-circuit), the falsiness guard
`!estimatedGas || !gasParams` — for a `bigint` estimate this fires
exactly when the estimate is `0`, and the params object is always truthy
when present — and then preflight, hooks, nonce, broadcast and wait. -/
def sendTransactionTry (cfg : Config) (env : Env) (s : Option Nat) :
    List Event × Option Nat × TryOut :=
  match env.gasResult with
  | .err e => ([], s, .ret (.err e))
  | .ok estimatedGas =>
    match env.gasParamsResult with
    | .err e => ([], s, .ret (.err e))
    | .ok gasParams =>
      if estimatedGas = 0 then
        ([], s, .ret (.err (classifyError (.strVal "Failed to get gas parameters"))))
      else tryPreflight cfg env estimatedGas gasParams s

/-- The `sendTransaction` method (lines 327-400): run the `try` block; on a thrown
fault the `catch` block (lines 392-399) resets the allocator, classifies
the fault, dispatches the on-error hook — whose own fault, if any,
escapes the call raw — and returns the classified error. -/
def sendTransaction (cfg : Config) (env : Env) (s : Option Nat) :
    List Event × Option Nat × TxOutcome :=
  match sendTransactionTry cfg env s with
  | (evs, s1, .ret r) => (evs, s1, .result r)
  | (evs, _, .thrown e) =>
    let relayError := classifyError e
    match cfg.onError with
    | none => (evs ++ [.nonceReset], none, .result (.err relayError))
    | some (.ok _) =>
      (evs ++ [.nonceReset, .errorHook], none, .result (.err relayError))
    | some (.throw e2) => (evs ++ [.nonceReset, .errorHook], none, .raised e2)

/-- The hook events a present slot contributes to a trace. -/
def optEv (slot : Option (CallOutcome Unit)) (ev : Event) : List Event :=
  if slot.isSome then [ev] else []

/-! ## Orchestrator lemmas -/

/-- The `try` block never dispatches the on-error hook: `errorHook` can
only be appended by the `catch` block. -/
theorem errorHook_not_in_try (cfg : Config) (env : Env) (s : Option Nat) :
    Event.errorHook ∉ (sendTransactionTry cfg env s).1 := by
  unfold sendTransactionTry tryPreflight tryBefore tryNonce tryBroadcast tryWait tryTail
  unfold NonceManager.getNextNonce feePerGas checkBalance
  repeat' split
  all_goals simp_all

/-- On every success exit of the `try` block, the dispatched hooks are
exactly: before-send, broadcast, confirmed (only when the receipt status
is success), after-complete — each present only when its slot is set —
in that order. -/
theorem try_success_events (cfg : Config) (env : Env) (s : Option Nat)
    (receipt : Receipt) (hw : env.waitResult = .ok receipt)
    (evs' : List Event) (s' : Option Nat) (h : Nat)
    (hout : sendTransactionTry cfg env s = (evs', s', .ret (.ok h))) :
    hookEvents evs' =
      optEv cfg.beforeTransaction .beforeHook ++
      optEv cfg.onTransactionBroadcast .broadcastHook ++
      (if receipt.status = .success
        then optEv cfg.onTransactionConfirmed .confirmedHook else []) ++
      optEv cfg.afterTransaction .afterHook := by
  unfold sendTransactionTry tryPreflight tryBefore tryNonce tryBroadcast tryWait tryTail at hout
  unfold NonceManager.getNextNonce feePerGas checkBalance at hout
  repeat' split at hout
  all_goals simp_all [hookEvents, optEv, Event.isHook]
  all_goals obtain ⟨h1, h2, h3⟩ := hout
  all_goals subst h1
  all_goals simp [hookEvents, Event.isHook]

/-- A `try`-block exit that returns an error after a nonce was allocated
leaves the allocator reset: only the confirmation-wait failure path
returns an error after allocation, and it resets first. -/
theorem try_err_after_alloc (cfg : Config) (env : Env) (s : Option Nat)
    (evs1 : List Event) (s1 : Option Nat) (e : RelayError)
    (htry : sendTransactionTry cfg env s = (evs1, s1, .ret (.err e)))
    (n : Nat) (halloc : Event.nonceAlloc n ∈ evs1) :
    s1 = none ∧ Event.nonceReset ∈ evs1 := by
  unfold sendTransactionTry tryPreflight tryBefore tryNonce tryBroadcast tryWait tryTail at htry
  unfold NonceManager.getNextNonce feePerGas checkBalance at htry
  repeat' split at htry
  all_goals simp_all
  all_goals obtain ⟨h1, h2, h3⟩ := htry
  all_goals subst h1
  all_goals subst h2
  all_goals simp_all

/-! ## Concrete execution fixtures -/

/-- A market-priced fee-parameter result. -/
def gpMarket : GasParameters := ⟨none, some 10, some 2⟩

/-- All five hooks present and completing normally; preflight off. -/
def allHooksOk : Config :=
  ⟨false, none, some (.ok ()), some (.ok ()), some (.ok ()), some (.ok ()),
    some (.ok ())⟩

/-- All hooks present, the after-complete hook throws, preflight off. -/
def afterBoomCfg : Config :=
  ⟨false, none, some (.ok ()), some (.throw (.errObj "hook boom")),
    some (.ok ()), some (.ok ()), some (.ok ())⟩

/-- All hooks present and preflight enabled. -/
def preflightCfg : Config :=
  ⟨true, none, some (.ok ()), some (.ok ()), some (.ok ()), some (.ok ()),
    some (.ok ())⟩

/-- Every external call succeeds: estimate 21000, market fees, balance
999, chain nonce 7, broadcast hash 99, receipt mined successfully. -/
def happyEnv : Env := ⟨.ok 21000, .ok gpMarket, .ok 999, .ok 7, .ok 99, .ok ⟨.success⟩⟩

/-- As `happyEnv` but the confirmation wait fails (e.g. a timeout). -/
def waitErrEnv : Env :=
  ⟨.ok 21000, .ok gpMarket, .ok 999, .ok 7, .ok 99,
    .err ⟨"timeout waiting", .TEMPORARY_FAILURE⟩⟩

/-- As `happyEnv` but the fetched balance is only 5. -/
def lowBalanceEnv : Env := ⟨.ok 21000, .ok gpMarket, .ok 5, .ok 7, .ok 99, .ok ⟨.success⟩⟩

/-- Claim C10: when gas estimation and fee computation both succeed but
the estimated gas is exactly 0, the falsiness check `!estimatedGas`
fires and `sendTransaction` returns a Failed result whose message is
`Failed to get gas parameters` (classified TEMPORARY_FAILURE), with no
hook dispatched and the allocator state untouched — a successful zero
estimate is treated like a missing result. -/
theorem sendTransaction_zero_gas_spec (cfg : Config) (env : Env)
    (s : Option Nat) (gp : GasParameters)
    (hg : env.gasResult = .ok 0) (hp : env.gasParamsResult = .ok gp) :
    sendTransaction cfg env s =
      ([], s, .result (.err ⟨"Failed to get gas parameters",
        RelayErrorCode.TEMPORARY_FAILURE⟩)) := by
  have hc : classifyError (.strVal "Failed to get gas parameters") =
      ⟨"Failed to get gas parameters", RelayErrorCode.TEMPORARY_FAILURE⟩ := by
    decide
  simp [sendTransaction, sendTransactionTry, hg, hp, hc]

/-- Witness for `sendTransaction_zero_gas_spec`: a fully concrete
execution with a zero estimate and cached nonce 5. -/
theorem sendTransaction_zero_gas_spec_witness :
    sendTransaction allHooksOk
      ⟨.ok 0, .ok gpMarket, .ok 999, .ok 7, .ok 99, .ok ⟨.success⟩⟩ (some 5) =
      ([], some 5, .result (.err ⟨"Failed to get gas parameters",
        RelayErrorCode.TEMPORARY_FAILURE⟩)) :=
  sendTransaction_zero_gas_spec allHooksOk
    ⟨.ok 0, .ok gpMarket, .ok 999, .ok 7, .ok 99, .ok ⟨.success⟩⟩ (some 5)
    gpMarket rfl rfl

/-- Claim C5: when the preflight balance check fails, `sendTransaction`
returns exactly that error, dispatches no hook (in particular not the
before-send hook), emits no allocator event, and leaves the allocator
state unchanged. -/
theorem sendTransaction_preflight_failure_spec (cfg : Config) (env : Env)
    (s : Option Nat) (g fee : Nat) (gp : GasParameters) (e : RelayError)
    (hg : env.gasResult = .ok g) (hgz : g ≠ 0)
    (hp : env.gasParamsResult = .ok gp)
    (hcb : cfg.checkBalanceEnabled = true)
    (hfee : feePerGas gp = .ok fee)
    (hchk : checkBalance env.balanceFetch (g * fee) cfg.minBalanceRequired =
      .err e) :
    sendTransaction cfg env s = ([], s, .result (.err e)) := by
  simp [sendTransaction, sendTransactionTry, tryPreflight, hg, hgz, hp, hcb,
    hfee, hchk]

/-- Witness for `sendTransaction_preflight_failure_spec`: balance 5
against required 21000 × 10; the call returns the classified
insufficient-balance error, no events, allocator still caching 3. -/
theorem sendTransaction_preflight_failure_spec_witness :
    sendTransaction preflightCfg lowBalanceEnv (some 3) =
      ([], some 3, .result (.err
        ⟨"Insufficient balance. Required: 210000, Available: 5",
          RelayErrorCode.TEMPORARY_FAILURE⟩)) :=
  sendTransaction_preflight_failure_spec preflightCfg lowBalanceEnv (some 3)
    21000 10 gpMarket
    ⟨"Insufficient balance. Required: 210000, Available: 5",
      RelayErrorCode.TEMPORARY_FAILURE⟩
    rfl (by decide) rfl rfl rfl (by decide)

/-- Claim C4: every `sendTransaction` execution that returns a Failed
result after a nonce was allocated (broadcast fault, post-allocation
hook fault, confirmation-wait error, …) resets the allocator to the
unset state before returning — the final state is `none`, a reset event
was emitted — so the next `getNextNonce` re-fetches the chain's
transaction count. -/
theorem sendTransaction_reset_after_alloc_spec (cfg : Config) (env : Env)
    (s : Option Nat) (n : Nat) (e : RelayError)
    (halloc : Event.nonceAlloc n ∈ (sendTransaction cfg env s).1)
    (hout : (sendTransaction cfg env s).2.2 = .result (.err e)) :
    (sendTransaction cfg env s).2.1 = none ∧
    Event.nonceReset ∈ (sendTransaction cfg env s).1 ∧
    (∀ c, NonceManager.getNextNonce (.ok c) (sendTransaction cfg env s).2.1 =
      .ok (c, some c)) := by
  rcases htry : sendTransactionTry cfg env s with ⟨evs1, s1, out1⟩
  cases out1 with
  | ret r =>
    cases r with
    | ok h =>
      simp [sendTransaction, htry] at hout
    | err e1 =>
      simp [sendTransaction, htry] at halloc hout ⊢
      obtain ⟨hs, hr⟩ := try_err_after_alloc cfg env s evs1 s1 e1 htry n halloc
      subst hs
      exact ⟨rfl, hr, fun c => rfl⟩
  | thrown e0 =>
    rcases honer : cfg.onError with _ | oc
    · simp [sendTransaction, htry, honer] at halloc hout ⊢
      exact fun c => rfl
    · cases oc with
      | ok _ =>
        simp [sendTransaction, htry, honer] at halloc hout ⊢
        exact fun c => rfl
      | throw e2 =>
        simp [sendTransaction, htry, honer] at hout

/-- Witness for `sendTransaction_reset_after_alloc_spec`: the concrete
confirmation-wait failure after allocating nonce 7. -/
theorem sendTransaction_reset_after_alloc_spec_witness :
    (sendTransaction allHooksOk waitErrEnv none).2.1 = none ∧
    Event.nonceReset ∈ (sendTransaction allHooksOk waitErrEnv none).1 ∧
    (∀ c, NonceManager.getNextNonce (.ok c)
      (sendTransaction allHooksOk waitErrEnv none).2.1 = .ok (c, some c)) :=
  sendTransaction_reset_after_alloc_spec allHooksOk waitErrEnv none 7
    ⟨"timeout waiting", RelayErrorCode.TEMPORARY_FAILURE⟩ (by decide) (by decide)

/-- The claim that hook faults always propagate raw is false: a throwing
after-complete hook is caught by the orchestrator's `catch`, the fault
is classified, the allocator is reset, the on-error hook is dispatched,
and `sendTransaction` returns a Failed result — nothing is raised. -/
theorem hook_fault_swallowed_counterexample :
    sendTransaction afterBoomCfg happyEnv none =
      ([.beforeHook, .nonceAlloc 7, .broadcastHook, .confirmedHook, .afterHook,
        .nonceReset, .errorHook],
        none,
        .result (.err ⟨"hook boom", RelayErrorCode.TEMPORARY_FAILURE⟩)) := by
  decide

/-- Claim C1 (amended): a fault thrown by a before-send, broadcast,
confirmed or after-complete hook is caught by `sendTransaction`'s
enclosing `catch`: it is classified, the on-error hook is dispatched,
and the call returns a Failed result.  The only hook fault that
propagates out of `sendTransaction` raw is one thrown by the on-error
hook itself, from inside the `catch` block. -/
theorem hook_fault_handling_spec (cfg : Config) (env : Env) (s : Option Nat) :
    (∀ e, (sendTransaction cfg env s).2.2 = .raised e →
      cfg.onError = some (.throw e)) ∧
    (∀ e0, (sendTransactionTry cfg env s).2.2 = .thrown e0 →
      (∀ e2, cfg.onError ≠ some (.throw e2)) →
      (sendTransaction cfg env s).2.2 = .result (.err (classifyError e0))) := by
  rcases htry : sendTransactionTry cfg env s with ⟨evs1, s1, out1⟩
  cases out1 with
  | ret r =>
    constructor
    · intro e he
      simp [sendTransaction, htry] at he
    · intro e0 h0
      simp at h0
  | thrown e0 =>
    rcases honer : cfg.onError with _ | oc
    · constructor
      · intro e he
        simp [sendTransaction, htry, honer] at he
      · intro e1 h1 h2
        simp at h1
        subst h1
        simp [sendTransaction, htry, honer]
    · cases oc with
      | ok _ =>
        constructor
        · intro e he
          simp [sendTransaction, htry, honer] at he
        · intro e1 h1 h2
          simp at h1
          subst h1
          simp [sendTransaction, htry, honer]
      | throw e2 =>
        constructor
        · intro e he
          simp [sendTransaction, htry, honer] at he
          subst he
          rfl
        · intro e1 h1 h2
          exact absurd rfl (h2 e2)

/-- Witness for `hook_fault_handling_spec`: the throwing after-complete
hook of `afterBoomCfg` surfaces as a classified Failed result. -/
theorem hook_fault_handling_spec_witness :
    (sendTransaction afterBoomCfg happyEnv none).2.2 =
      .result (.err (classifyError (.errObj "hook boom"))) :=
  (hook_fault_handling_spec afterBoomCfg happyEnv none).2
    (.errObj "hook boom") (by decide) (by simp [afterBoomCfg])

/-- The claim that the on-error hook fires on every Failed result is
false: a confirmation-wait error is returned as a value (`receipt.error`),
so `sendTransaction` returns Failed after before-send and broadcast
hooks fired, with the on-error hook never dispatched. -/
theorem failed_without_error_hook_counterexample :
    sendTransaction allHooksOk waitErrEnv none =
      ([.beforeHook, .nonceAlloc 7, .broadcastHook, .nonceReset], none,
        .result (.err ⟨"timeout waiting", RelayErrorCode.TEMPORARY_FAILURE⟩)) ∧
    Event.errorHook ∉ (sendTransaction allHooksOk waitErrEnv none).1 := by
  constructor
  · decide
  · decide

/-- Claim C2 (amended): on a successful `sendTransaction` the dispatched
hooks are exactly before-send, broadcast, confirmed (only when the final
receipt status is success), after-complete, in that order (each present
exactly when its slot is set); whenever the on-error hook fires it is
the last event and fires once; and it fires exactly when a fault was
thrown inside the `try` block and the slot is set — executions that end
in a Failed result carried as a value (gas-estimation error, fee error,
preflight failure, confirmation-wait error) do not dispatch it. -/
theorem sendTransaction_hook_order_spec (cfg : Config) (env : Env)
    (s : Option Nat) (receipt : Receipt) (h : Nat) :
    (env.waitResult = .ok receipt →
      (sendTransaction cfg env s).2.2 = .result (.ok h) →
      hookEvents (sendTransaction cfg env s).1 =
        optEv cfg.beforeTransaction .beforeHook ++
        optEv cfg.onTransactionBroadcast .broadcastHook ++
        (if receipt.status = .success
          then optEv cfg.onTransactionConfirmed .confirmedHook else []) ++
        optEv cfg.afterTransaction .afterHook) ∧
    (Event.errorHook ∈ (sendTransaction cfg env s).1 →
      (sendTransaction cfg env s).1.getLast? = some .errorHook ∧
      Event.errorHook ∉ (sendTransaction cfg env s).1.dropLast) ∧
    (Event.errorHook ∈ (sendTransaction cfg env s).1 ↔
      ((∃ e0, (sendTransactionTry cfg env s).2.2 = .thrown e0) ∧
        cfg.onError ≠ none)) := by
  have hne := errorHook_not_in_try cfg env s
  rcases htry : sendTransactionTry cfg env s with ⟨evs1, s1, out1⟩
  rw [htry] at hne
  simp only [] at hne
  cases out1 with
  | ret r =>
    refine ⟨?_, ?_, ?_⟩
    · intro hw hok
      simp [sendTransaction, htry] at hok
      subst hok
      rw [show (sendTransaction cfg env s).1 = evs1 by simp [sendTransaction, htry]]
      simpa using try_success_events cfg env s receipt hw evs1 s1 h htry
    · intro hin
      simp [sendTransaction, htry] at hin
      exact absurd hin hne
    · constructor
      · intro hin
        simp [sendTransaction, htry] at hin
        exact absurd hin hne
      · rintro ⟨⟨e0, h0⟩, _⟩
        simp at h0
  | thrown e0 =>
    rcases honer : cfg.onError with _ | oc
    · refine ⟨?_, ?_, ?_⟩
      · intro hw hok
        simp [sendTransaction, htry, honer] at hok
      · intro hin
        simp [sendTransaction, htry, honer] at hin
        exact absurd hin hne
      · simp [sendTransaction, htry, honer]
        intro hin
        exact absurd hin hne
    · have htrace : ∀ oc2 : CallOutcome Unit, cfg.onError = some oc2 →
          (sendTransaction cfg env s).1 = evs1 ++ [.nonceReset, .errorHook] := by
        intro oc2 hoc
        cases oc2 <;> simp [sendTransaction, htry, hoc]
      refine ⟨?_, ?_, ?_⟩
      · intro hw hok
        cases oc <;> simp [sendTransaction, htry, honer] at hok
      · intro hin
        rw [htrace oc honer]
        have : evs1 ++ [Event.nonceReset, Event.errorHook] =
            (evs1 ++ [Event.nonceReset]) ++ [Event.errorHook] := by
          simp
        rw [this]
        simp [hne]
      · rw [htrace oc honer]
        simp [htry]

/-- Witness for `sendTransaction_hook_order_spec`: the all-hooks success
execution yields exactly the four hooks in order, and in the
after-complete-hook-fault execution the on-error hook is the last
event. -/
theorem sendTransaction_hook_order_spec_witness :
    hookEvents (sendTransaction allHooksOk happyEnv none).1 =
      optEv allHooksOk.beforeTransaction .beforeHook ++
      optEv allHooksOk.onTransactionBroadcast .broadcastHook ++
      (if (⟨.success⟩ : Receipt).status = .success
        then optEv allHooksOk.onTransactionConfirmed .confirmedHook else []) ++
      optEv allHooksOk.afterTransaction .afterHook ∧
    ((sendTransaction afterBoomCfg happyEnv none).1.getLast? =
        some .errorHook ∧
      Event.errorHook ∉ (sendTransaction afterBoomCfg happyEnv none).1.dropLast) :=
  ⟨(sendTransaction_hook_order_spec allHooksOk happyEnv none ⟨.success⟩ 99).1
      rfl (by decide),
    (sendTransaction_hook_order_spec afterBoomCfg happyEnv none ⟨.success⟩
      99).2.1 (by decide)⟩
